import Mathlib

/- Verification of the company-management backend's RBAC engine, request and
   task state machines, salary arithmetic, audit layer and performance
   accumulator, as a shallow embedding of the JavaScript source. -/

namespace CMS

/- Role and department model, from backend/src/middleware/rbac.js. -/

inductive Role where
  | founder
  | cofounder
  | technicalHead
  | salesHead
  | financeHead
  | employee
deriving DecidableEq, Repr

inductive Department where
  | technical
  | sales
  | finance
deriving DecidableEq, Repr

/-- ROLE_HIERARCHY lookup (rbac.js): employee 1, heads 2, co-founder 3,
founder 4. The JS `|| 0` default for unrecognized strings is unreachable
here because `Role` ranges over exactly the six valid roles. -/
def getRoleLevel : Role → Nat
  | Role.employee => 1
  | Role.technicalHead => 2
  | Role.salesHead => 2
  | Role.financeHead => 2
  | Role.cofounder => 3
  | Role.founder => 4

/-- getDepartmentFromRole (rbac.js): the fixed binding of a head role to its
department; null for the other roles. -/
def getDepartmentFromRole : Role → Option Department
  | Role.technicalHead => some Department.technical
  | Role.salesHead => some Department.sales
  | Role.financeHead => some Department.finance
  | _ => none

/-- The JS test `user.role.includes(..head..)`, true exactly for the three
department-head roles. -/
def Role.isHead : Role → Bool
  | Role.technicalHead => true
  | Role.salesHead => true
  | Role.financeHead => true
  | _ => false

/-- A stored User document: identity, role, department (null for the top two
roles, present for employees and heads). -/
structure UserRec where
  id : Nat
  role : Role
  department : Option Department
deriving DecidableEq, Repr

/-- Error taxonomy of the controllers, abstracted from HTTP responses:
`validation` and `conflict` are the 400 responses (malformed input versus
duplicate/terminal-state), `forbidden` is 403, `notFound` is 404,
`serverError` is the catch-all 500. -/
inductive Err where
  | validation
  | forbidden
  | notFound
  | conflict
  | serverError
deriving DecidableEq, Repr

/- Task model, from backend/src/models/Task.js usage in taskController.js. -/

inductive TaskStatus where
  | pending
  | inProgress
  | review
  | completed
deriving DecidableEq, Repr

structure TaskRec where
  id : Nat
  assignedTo : Nat
  assignedBy : Nat
  department : Option Department
  status : TaskStatus
  completedAt : Option Nat
deriving DecidableEq, Repr

/- Request model, from the request controller. -/

inductive ReqType where
  | leave
  | expense
  | task
deriving DecidableEq, Repr

inductive RequestStatus where
  | pending
  | approved
  | rejected
deriving DecidableEq, Repr

structure RequestRec where
  id : Nat
  rtype : ReqType
  status : RequestStatus
  createdBy : Nat
  department : Option Department
  approvedBy : Option Nat
  approvedAt : Option Nat
  rejectionReason : Option Nat
deriving DecidableEq, Repr

/- Salary model, from the salary controller. The stored `department` string
is a real department copied from the target user, or the literal
fallback string used when the target has none; we render that fallback
(`management`) as `none`. -/

inductive SalaryStatus where
  | pending
  | paid
deriving DecidableEq, Repr

structure SalaryRec where
  id : Nat
  user : Nat
  month : Nat
  year : Nat
  basicSalary : Int
  allowances : Int
  deductions : Int
  netSalary : Int
  department : Option Department
  status : SalaryStatus
deriving DecidableEq, Repr

/- List endpoints (the visibility-filter consumers), each translated from
its controller's query-building switch. A Mongo find with query q is
rendered as List.filter with the predicate q. -/

/-- getUsers (userController.js): founder sees all; co-founder everyone but
founder-role records; a head exactly role=employee of the bound department;
an employee receives a 403 refusal, not a self-scoped list. -/
def getUsers (actor : UserRec) (db : List UserRec) : Except Err (List UserRec) :=
  if actor.role = Role.founder then
    Except.ok db
  else if actor.role = Role.cofounder then
    Except.ok (db.filter (fun u => u.role != Role.founder))
  else if actor.role.isHead then
    Except.ok (db.filter (fun u =>
      u.role == Role.employee && u.department == getDepartmentFromRole actor.role))
  else
    Except.error Err.forbidden

/-- getTasks (taskController.js): founder and co-founder see every task; a
head the tasks of the bound department; an employee the tasks assigned to
themself. -/
def getTasks (actor : UserRec) (db : List TaskRec) : List TaskRec :=
  if actor.role = Role.founder then db
  else if actor.role = Role.cofounder then db
  else if actor.role.isHead then
    db.filter (fun t => t.department == getDepartmentFromRole actor.role)
  else
    db.filter (fun t => t.assignedTo == actor.id)

/-- getRequests (request controller): founder and co-founder unrestricted, a
head the bound department's requests, an employee their own; the route also
accepts optional status and type narrowing applied on top of the
visibility query. -/
def getRequests (actor : UserRec) (statusF : Option RequestStatus)
    (typeF : Option ReqType) (db : List RequestRec) : List RequestRec :=
  let base :=
    if actor.role = Role.founder || actor.role = Role.cofounder then db
    else if actor.role.isHead then
      db.filter (fun r => r.department == getDepartmentFromRole actor.role)
    else
      db.filter (fun r => r.createdBy == actor.id)
  let base :=
    match statusF with
    | none => base
    | some s => base.filter (fun r => r.status == s)
  match typeF with
  | none => base
  | some ty => base.filter (fun r => r.rtype == ty)

/-- getSalaries (salary controller): founder unrestricted; co-founder
excludes salaries whose user is a founder-role user (the `$nin` over the
ids of founder users); a head the bound department's salary rows; an
employee their own. -/
def getSalaries (actor : UserRec) (userDb : List UserRec)
    (db : List SalaryRec) : List SalaryRec :=
  match actor.role with
  | Role.founder => db
  | Role.cofounder =>
      let founderIds := (userDb.filter (fun u => u.role == Role.founder)).map (fun u => u.id)
      db.filter (fun s => !(founderIds.contains s.user))
  | Role.technicalHead | Role.salesHead | Role.financeHead =>
      db.filter (fun s => s.department == getDepartmentFromRole actor.role)
  | Role.employee => db.filter (fun s => s.user == actor.id)

end CMS

namespace CMS

/- Claim C1: visibility filters of the list endpoints, stated from the
spec's visibilityFilter wording, to be compared with the endpoint
definitions above. -/

/-- Modelled from the claim wording for user records: founder unrestricted,
co-founder excludes founder-role records, a head sees role=employee records
of the bound department, an employee only their own record. -/
def specUserVisible (actor : UserRec) (u : UserRec) : Bool :=
  match actor.role with
  | Role.founder => true
  | Role.cofounder => u.role != Role.founder
  | Role.employee => u.id == actor.id
  | _ => u.role == Role.employee && u.department == getDepartmentFromRole actor.role

/-- Task-list visibility in the claim's terms: the employee clause is the
claim's own (records assigned to self); founder and co-founder are
unrestricted and a head is scoped to the bound department. -/
def specTaskVisible (actor : UserRec) (t : TaskRec) : Bool :=
  match actor.role with
  | Role.founder => true
  | Role.cofounder => true
  | Role.employee => t.assignedTo == actor.id
  | _ => t.department == getDepartmentFromRole actor.role

/-- Request-list visibility in the claim's terms: employees are scoped to
requests they created, heads to the bound department. -/
def specRequestVisible (actor : UserRec) (r : RequestRec) : Bool :=
  match actor.role with
  | Role.founder => true
  | Role.cofounder => true
  | Role.employee => r.createdBy == actor.id
  | _ => r.department == getDepartmentFromRole actor.role

/-- Salary-list visibility in the claim's terms: a co-founder excludes every
salary row whose owner is a founder-role user. -/
def specSalaryVisible (actor : UserRec) (userDb : List UserRec) (s : SalaryRec) : Bool :=
  match actor.role with
  | Role.founder => true
  | Role.cofounder => !(userDb.any (fun u => u.role == Role.founder && u.id == s.user))
  | Role.employee => s.user == actor.id
  | _ => s.department == getDepartmentFromRole actor.role

theorem contains_founderIds_eq_any (l : List UserRec) (a : Nat) :
    (((l.filter (fun u => u.role == Role.founder)).map (fun u => u.id)).contains a)
      = l.any (fun u => u.role == Role.founder && u.id == a) := by
  rw [Bool.eq_iff_iff]
  simp only [List.contains_iff_exists_mem_beq, List.mem_map, List.mem_filter,
    List.any_eq_true, Bool.and_eq_true, beq_iff_eq]
  constructor
  · rintro ⟨b, ⟨u, ⟨hu, hf⟩, rfl⟩, hb⟩
    exact ⟨u, hu, hf, hb.symm⟩
  · rintro ⟨u, hu, hf, hid⟩
    exact ⟨u.id, ⟨u, ⟨hu, hf⟩, rfl⟩, hid.symm⟩

/-- An employee actor used in the C1 counterexample. -/
def empActorC1 : UserRec := ⟨1, Role.employee, some Department.technical⟩

/-- Claim C1, refuted as stated: the claim requires the users list to return
exactly the records passing the employee's visibility filter (the
employee's own record), but getUsers refuses an employee with an
authorization error and returns no records, even when the store contains
exactly that employee's own record, which the claimed filter accepts. -/
theorem C1_counterexample :
    getUsers empActorC1 [empActorC1] = Except.error Err.forbidden ∧
    specUserVisible empActorC1 empActorC1 = true := by
  exact ⟨rfl, rfl⟩

/-- Amended claim C1: each list endpoint returns exactly the records passing
its visibility filter, where the filters are: users list restricted to
role=employee of the bound department for heads and founder-role exclusion
for co-founders, but an employee is refused with an authorization error
rather than scoped to self; task, request and salary lists scope heads by
bound department alone (not by a role restriction on the record), scope
employees to records addressed to self, and leave founder and co-founder
unrestricted except that a co-founder's salary list excludes rows owned by
founder-role users. -/
theorem C1_amended_visibility (actor : UserRec) (udb : List UserRec)
    (tdb : List TaskRec) (rdb : List RequestRec) (sdb : List SalaryRec) :
    (actor.role = Role.employee → getUsers actor udb = Except.error Err.forbidden) ∧
    (actor.role ≠ Role.employee →
      getUsers actor udb = Except.ok (udb.filter (specUserVisible actor))) ∧
    getTasks actor tdb = tdb.filter (specTaskVisible actor) ∧
    getRequests actor none none rdb = rdb.filter (specRequestVisible actor) ∧
    getSalaries actor udb sdb = sdb.filter (specSalaryVisible actor udb) := by
  obtain ⟨aid, arole, adept⟩ := actor
  cases arole
  case founder =>
    refine ⟨fun h => Role.noConfusion h, fun _ => ?_, ?_, ?_, ?_⟩
    · show Except.ok udb
        = Except.ok (udb.filter (specUserVisible ⟨aid, Role.founder, adept⟩))
      rw [show udb.filter (specUserVisible ⟨aid, Role.founder, adept⟩)
            = udb.filter (fun _ => true) from List.filter_congr fun x _ => rfl,
          List.filter_true]
    · show tdb = tdb.filter (specTaskVisible ⟨aid, Role.founder, adept⟩)
      rw [show tdb.filter (specTaskVisible ⟨aid, Role.founder, adept⟩)
            = tdb.filter (fun _ => true) from List.filter_congr fun x _ => rfl,
          List.filter_true]
    · show rdb = rdb.filter (specRequestVisible ⟨aid, Role.founder, adept⟩)
      rw [show rdb.filter (specRequestVisible ⟨aid, Role.founder, adept⟩)
            = rdb.filter (fun _ => true) from List.filter_congr fun x _ => rfl,
          List.filter_true]
    · show sdb = sdb.filter (specSalaryVisible ⟨aid, Role.founder, adept⟩ udb)
      rw [show sdb.filter (specSalaryVisible ⟨aid, Role.founder, adept⟩ udb)
            = sdb.filter (fun _ => true) from List.filter_congr fun x _ => rfl,
          List.filter_true]
  case cofounder =>
    refine ⟨fun h => Role.noConfusion h, fun _ => ?_, ?_, ?_, ?_⟩
    · exact congrArg Except.ok (List.filter_congr fun x _ => rfl)
    · show tdb = tdb.filter (specTaskVisible ⟨aid, Role.cofounder, adept⟩)
      rw [show tdb.filter (specTaskVisible ⟨aid, Role.cofounder, adept⟩)
            = tdb.filter (fun _ => true) from List.filter_congr fun x _ => rfl,
          List.filter_true]
    · show rdb = rdb.filter (specRequestVisible ⟨aid, Role.cofounder, adept⟩)
      rw [show rdb.filter (specRequestVisible ⟨aid, Role.cofounder, adept⟩)
            = rdb.filter (fun _ => true) from List.filter_congr fun x _ => rfl,
          List.filter_true]
    · exact List.filter_congr fun x _ => by
        show (!(((udb.filter (fun u => u.role == Role.founder)).map
            (fun u => u.id)).contains x.user)) = _
        rw [contains_founderIds_eq_any]
        rfl
  case technicalHead =>
    exact ⟨fun h => Role.noConfusion h,
      fun _ => congrArg Except.ok (List.filter_congr fun x _ => rfl),
      List.filter_congr fun x _ => rfl,
      List.filter_congr fun x _ => rfl,
      List.filter_congr fun x _ => rfl⟩
  case salesHead =>
    exact ⟨fun h => Role.noConfusion h,
      fun _ => congrArg Except.ok (List.filter_congr fun x _ => rfl),
      List.filter_congr fun x _ => rfl,
      List.filter_congr fun x _ => rfl,
      List.filter_congr fun x _ => rfl⟩
  case financeHead =>
    exact ⟨fun h => Role.noConfusion h,
      fun _ => congrArg Except.ok (List.filter_congr fun x _ => rfl),
      List.filter_congr fun x _ => rfl,
      List.filter_congr fun x _ => rfl,
      List.filter_congr fun x _ => rfl⟩
  case employee =>
    exact ⟨fun _ => rfl, fun h => absurd rfl h,
      List.filter_congr fun x _ => rfl,
      List.filter_congr fun x _ => rfl,
      List.filter_congr fun x _ => rfl⟩

/-- Witness for the amended C1: evaluating the endpoints at a concrete
employee actor discharges the role hypotheses of the theorem. -/
theorem C1_amended_witness :
    getUsers empActorC1 [] = Except.error Err.forbidden :=
  (C1_amended_visibility empActorC1 [] [] [] []).1 rfl

end CMS

namespace CMS

/- Claim C2: role assignment, from userManagementController.changeUserRole
and userController.updateUser. -/

/-- Result of a successful audited role change: the updated user document
plus the old and new role handed to the audit layer. -/
structure RoleChangeOk where
  updated : UserRec
  oldRole : Role
  newRole : Role
deriving DecidableEq, Repr

/-- changeUserRole (userManagementController.js): founder/co-founder gate,
hierarchy check, escalation check, no-op-role check, then department
consistency for the new role. The JS validity check on the role string is
subsumed by the `Role` type covering exactly the six valid roles. -/
def changeUserRole (currentUser : UserRec) (target : Option UserRec)
    (newRole : Role) (reqDepartment : Option Department) : Except Err RoleChangeOk :=
  if currentUser.role ≠ Role.founder ∧ currentUser.role ≠ Role.cofounder then
    Except.error Err.forbidden
  else
    match target with
    | none => Except.error Err.notFound
    | some targetUser =>
      if getRoleLevel currentUser.role ≤ getRoleLevel targetUser.role then
        Except.error Err.forbidden
      else if getRoleLevel newRole ≥ getRoleLevel currentUser.role then
        Except.error Err.forbidden
      else if targetUser.role = newRole then
        Except.error Err.validation
      else
        let deptResult : Except Err (Option Department) :=
          if newRole.isHead then
            match reqDepartment with
            | some d =>
                if some d ≠ getDepartmentFromRole newRole then
                  Except.error Err.validation
                else Except.ok (getDepartmentFromRole newRole)
            | none => Except.ok (getDepartmentFromRole newRole)
          else if newRole = Role.founder ∨ newRole = Role.cofounder then
            Except.ok none
          else
            if targetUser.department = none ∧ reqDepartment = none then
              Except.error Err.validation
            else Except.ok (reqDepartment.orElse fun _ => targetUser.department)
        match deptResult with
        | Except.error e => Except.error e
        | Except.ok newDept =>
            Except.ok ⟨{ targetUser with role := newRole, department := newDept },
              targetUser.role, newRole⟩

/-- The updatable fields of PUT /api/users/:id that interact with the RBAC
checks; the remaining body fields (name, email, ...) pass through the
document update untouched by any check. -/
structure UpdateBody where
  role : Option Role
  department : Option Department
deriving DecidableEq, Repr

/-- Applying a findByIdAndUpdate body to a user document: provided fields
overwrite, missing fields keep their stored value. -/
def applyUserUpdate (u : UserRec) (b : UpdateBody) : UserRec :=
  { u with role := b.role.getD u.role,
           department := (b.department.orElse fun _ => u.department) }

/-- updateUser (userController.js): employees refused, strict hierarchy
check, department-head scope check, and the role-escalation guard applied
only when the body carries a role. -/
def updateUser (currentUser : UserRec) (target : Option UserRec)
    (body : UpdateBody) : Except Err UserRec :=
  match target with
  | none => Except.error Err.notFound
  | some targetUser =>
    if currentUser.role = Role.employee then
      Except.error Err.forbidden
    else if getRoleLevel currentUser.role ≤ getRoleLevel targetUser.role then
      Except.error Err.forbidden
    else if currentUser.role.isHead ∧ (targetUser.role ≠ Role.employee ∨
        targetUser.department ≠ getDepartmentFromRole currentUser.role) then
      Except.error Err.forbidden
    else
      match body.role with
      | some newRole =>
          if getRoleLevel newRole ≥ getRoleLevel currentUser.role then
            Except.error Err.forbidden
          else Except.ok (applyUserUpdate targetUser body)
      | none => Except.ok (applyUserUpdate targetUser body)

theorem changeUserRole_ok_levels (c t : UserRec) (nr : Role)
    (rd : Option Department) (res : RoleChangeOk)
    (h : changeUserRole c (some t) nr rd = Except.ok res) :
    getRoleLevel t.role < getRoleLevel c.role ∧
    getRoleLevel nr < getRoleLevel c.role := by
  simp only [changeUserRole] at h
  split at h
  · exact Except.noConfusion h
  · split at h
    · exact Except.noConfusion h
    · next h1 =>
        split at h
        · exact Except.noConfusion h
        · next h2 => exact ⟨by omega, by omega⟩

theorem updateUser_ok_levels (c t : UserRec) (b : UpdateBody) (res : UserRec)
    (r : Role) (h : updateUser c (some t) b = Except.ok res)
    (hr : b.role = some r) :
    getRoleLevel t.role < getRoleLevel c.role ∧
    getRoleLevel r < getRoleLevel c.role := by
  simp only [updateUser] at h
  split at h
  · exact Except.noConfusion h
  · split at h
    · exact Except.noConfusion h
    · next h1 =>
        split at h
        · exact Except.noConfusion h
        · split at h
          · next nr heq =>
              rw [hr] at heq
              cases heq
              split at h
              · exact Except.noConfusion h
              · next h2 => exact ⟨by omega, by omega⟩
          · next heq => rw [hr] at heq; exact Option.noConfusion heq

/-- Claim C2, confirmed: both role-change paths succeed only when the actor
is strictly above the target and the new role is strictly below the actor,
and whenever the new role's level reaches the actor's level the assignment
is refused, for any actor/target/newRole triple. -/
theorem C2_no_role_escalation (currentUser targetUser : UserRec)
    (newRole : Role) (reqDepartment : Option Department) (body : UpdateBody) :
    (∀ res, changeUserRole currentUser (some targetUser) newRole reqDepartment
        = Except.ok res →
      getRoleLevel targetUser.role < getRoleLevel currentUser.role ∧
      getRoleLevel newRole < getRoleLevel currentUser.role) ∧
    (getRoleLevel currentUser.role ≤ getRoleLevel newRole →
      ∃ e, changeUserRole currentUser (some targetUser) newRole reqDepartment
        = Except.error e) ∧
    (∀ res r, updateUser currentUser (some targetUser) body = Except.ok res →
      body.role = some r →
      getRoleLevel targetUser.role < getRoleLevel currentUser.role ∧
      getRoleLevel r < getRoleLevel currentUser.role) := by
  refine ⟨fun res h => changeUserRole_ok_levels _ _ _ _ _ h, ?_,
    fun res r h hr => updateUser_ok_levels _ _ _ _ _ h hr⟩
  intro hge
  cases hres : changeUserRole currentUser (some targetUser) newRole reqDepartment with
  | error e => exact ⟨e, rfl⟩
  | ok res =>
      have := (changeUserRole_ok_levels _ _ _ _ _ hres).2
      omega

/-- A founder actor used in closed witnesses. -/
def founderActor : UserRec := ⟨0, Role.founder, none⟩

/-- A technical-department employee used in closed witnesses. -/
def empTargetTech : UserRec := ⟨1, Role.employee, some Department.technical⟩

/-- Witness for C2: a founder promoting a technical employee to technical
head succeeds, and the theorem instantiated there yields the level facts. -/
theorem C2_no_role_escalation_witness :
    getRoleLevel Role.employee < getRoleLevel Role.founder ∧
    getRoleLevel Role.technicalHead < getRoleLevel Role.founder :=
  (C2_no_role_escalation founderActor empTargetTech Role.technicalHead none
      ⟨none, none⟩).1
    ⟨⟨1, Role.technicalHead, some Department.technical⟩,
      Role.employee, Role.technicalHead⟩ rfl

end CMS

namespace CMS

/- Claim C5: the Request state machine, from the request controller's
approveRequest and rejectRequest handlers. The notification and
leave-performance side effects of a successful transition touch other
stores and are modelled with the performance accumulator below. -/

/-- approveRequest: employees refused; a head refused outside the bound
department; a non-pending request answered with the already-processed
conflict; otherwise the pending request becomes approved with approver and
timestamp recorded. -/
def approveRequest (user : UserRec) (now : Nat)
    (req : Option RequestRec) : Except Err RequestRec :=
  match req with
  | none => Except.error Err.notFound
  | some request =>
    if user.role = Role.employee then
      Except.error Err.forbidden
    else if user.role.isHead ∧
        request.department ≠ getDepartmentFromRole user.role then
      Except.error Err.forbidden
    else if request.status ≠ RequestStatus.pending then
      Except.error Err.conflict
    else
      Except.ok
        { request with
            status := RequestStatus.approved
            approvedBy := some user.id
            approvedAt := some now }

/-- rejectRequest: same gating as approveRequest; the pending request
becomes rejected, recording the rejector, the timestamp and the supplied
reason (the empty-string fallback rendered as payload 0). -/
def rejectRequest (user : UserRec) (now : Nat) (reason : Option Nat)
    (req : Option RequestRec) : Except Err RequestRec :=
  match req with
  | none => Except.error Err.notFound
  | some request =>
    if user.role = Role.employee then
      Except.error Err.forbidden
    else if user.role.isHead ∧
        request.department ≠ getDepartmentFromRole user.role then
      Except.error Err.forbidden
    else if request.status ≠ RequestStatus.pending then
      Except.error Err.conflict
    else
      Except.ok
        { request with
            status := RequestStatus.rejected
            approvedBy := some user.id
            approvedAt := some now
            rejectionReason := some (reason.getD 0) }

theorem level_gt_one_of_ne_employee (r : Role) (h : r ≠ Role.employee) :
    1 < getRoleLevel r := by
  cases r <;> first | exact absurd rfl h | decide

theorem approveRequest_ok_facts (user : UserRec) (now : Nat) (r r2 : RequestRec)
    (h : approveRequest user now (some r) = Except.ok r2) :
    r.status = RequestStatus.pending ∧ r2.status = RequestStatus.approved ∧
    1 < getRoleLevel user.role ∧
    (user.role.isHead = true → r.department = getDepartmentFromRole user.role) := by
  simp only [approveRequest] at h
  split at h
  · exact Except.noConfusion h
  · next hemp =>
      split at h
      · exact Except.noConfusion h
      · next hd =>
          split at h
          · exact Except.noConfusion h
          · next hs =>
              cases h
              exact ⟨not_ne_iff.mp hs, rfl, level_gt_one_of_ne_employee _ hemp,
                fun hH => not_ne_iff.mp (fun hne => hd ⟨hH, hne⟩)⟩

theorem rejectRequest_ok_facts (user : UserRec) (now : Nat) (reason : Option Nat)
    (r r2 : RequestRec)
    (h : rejectRequest user now reason (some r) = Except.ok r2) :
    r.status = RequestStatus.pending ∧ r2.status = RequestStatus.rejected ∧
    1 < getRoleLevel user.role ∧
    (user.role.isHead = true → r.department = getDepartmentFromRole user.role) := by
  simp only [rejectRequest] at h
  split at h
  · exact Except.noConfusion h
  · next hemp =>
      split at h
      · exact Except.noConfusion h
      · next hd =>
          split at h
          · exact Except.noConfusion h
          · next hs =>
              cases h
              exact ⟨not_ne_iff.mp hs, rfl, level_gt_one_of_ne_employee _ hemp,
                fun hH => not_ne_iff.mp (fun hne => hd ⟨hH, hne⟩)⟩

/-- Claim C5, confirmed: the only successful transitions are pending to
approved and pending to rejected; success requires the actor's level to
exceed the employee level and, for a head, the bound department to equal
the request's department; on a non-pending request both operations fail
(so the stored request is never changed again), and for an actor passing
the authorization gates that failure is precisely the conflict error. -/
theorem C5_request_transitions (user : UserRec) (now : Nat)
    (reason : Option Nat) (r : RequestRec) :
    (∀ r2, approveRequest user now (some r) = Except.ok r2 →
      r.status = RequestStatus.pending ∧ r2.status = RequestStatus.approved ∧
      1 < getRoleLevel user.role ∧
      (user.role.isHead = true → r.department = getDepartmentFromRole user.role)) ∧
    (∀ r2, rejectRequest user now reason (some r) = Except.ok r2 →
      r.status = RequestStatus.pending ∧ r2.status = RequestStatus.rejected ∧
      1 < getRoleLevel user.role ∧
      (user.role.isHead = true → r.department = getDepartmentFromRole user.role)) ∧
    (r.status ≠ RequestStatus.pending →
      (∃ e, approveRequest user now (some r) = Except.error e) ∧
      (∃ e, rejectRequest user now reason (some r) = Except.error e)) ∧
    (r.status ≠ RequestStatus.pending → user.role ≠ Role.employee →
      (user.role.isHead = true → r.department = getDepartmentFromRole user.role) →
      approveRequest user now (some r) = Except.error Err.conflict ∧
      rejectRequest user now reason (some r) = Except.error Err.conflict) := by
  refine ⟨fun r2 h => approveRequest_ok_facts user now r r2 h,
    fun r2 h => rejectRequest_ok_facts user now reason r r2 h, ?_, ?_⟩
  · intro hst
    constructor
    · cases hres : approveRequest user now (some r) with
      | error e => exact ⟨e, rfl⟩
      | ok r2 =>
          exact absurd (approveRequest_ok_facts user now r r2 hres).1 hst
    · cases hres : rejectRequest user now reason (some r) with
      | error e => exact ⟨e, rfl⟩
      | ok r2 =>
          exact absurd (rejectRequest_ok_facts user now reason r r2 hres).1 hst
  · intro hst hemp hdept
    constructor
    · simp only [approveRequest]
      rw [if_neg hemp, if_neg (fun hc => hc.2 (hdept hc.1)), if_pos hst]
    · simp only [rejectRequest]
      rw [if_neg hemp, if_neg (fun hc => hc.2 (hdept hc.1)), if_pos hst]

/-- A technical department head used in closed witnesses. -/
def techHeadActor : UserRec := ⟨2, Role.technicalHead, some Department.technical⟩

/-- A pending technical leave request used in closed witnesses. -/
def pendingReqTech : RequestRec :=
  ⟨10, ReqType.leave, RequestStatus.pending, 1, some Department.technical,
    none, none, none⟩

/-- An already-approved technical request used in closed witnesses. -/
def approvedReqTech : RequestRec :=
  ⟨11, ReqType.leave, RequestStatus.approved, 1, some Department.technical,
    some 2, some 4, none⟩

/-- Witness for C5: the technical head approving a pending technical request
succeeds with the stated facts, and re-approving an already approved one is
answered with the conflict error. -/
theorem C5_request_transitions_witness :
    (pendingReqTech.status = RequestStatus.pending ∧
      RequestStatus.approved = RequestStatus.approved ∧
      1 < getRoleLevel Role.technicalHead ∧
      (Role.technicalHead.isHead = true →
        pendingReqTech.department = getDepartmentFromRole Role.technicalHead)) ∧
    approveRequest techHeadActor 5 (some approvedReqTech)
      = Except.error Err.conflict :=
  ⟨(C5_request_transitions techHeadActor 5 none pendingReqTech).1
      ⟨10, ReqType.leave, RequestStatus.approved, 1, some Department.technical,
        some 2, some 5, none⟩ (by rfl),
    ((C5_request_transitions techHeadActor 5 none approvedReqTech).2.2.2
      (by decide) (by decide) (fun _ => rfl)).1⟩

end CMS

namespace CMS

/- Claim C9: the role-change audit layer, from roleChangeService.js. -/

/-- An immutable RoleChangeLog entry (snapshot and audit info fields carry
no logic and are elided to the identifying data). -/
structure RoleChangeLogEntry where
  changedUserId : Nat
  oldRole : Role
  newRole : Role
  changedBy : Nat
  changedAt : Nat
deriving DecidableEq, Repr

inductive NotifType where
  | loginSuccess
  | requestApproved
  | requestRejected
  | roleChanged
  | taskAssigned
deriving DecidableEq, Repr

structure NotificationRec where
  userId : Nat
  ntype : NotifType
deriving DecidableEq, Repr

/-- The audit-side stores: the append-only role-change log and the
notification collection. -/
structure AuditState where
  logs : List RoleChangeLogEntry
  notifs : List NotificationRec
deriving DecidableEq, Repr

/-- logRoleChange (roleChangeService.js): returns null and writes nothing
when the old role equals the new role; otherwise appends one log entry and
one role-changed notification for the affected user. The catch-all per the
source swallows store failures, so the function never throws; the
successful write path is modelled. -/
def logRoleChange (changedUserId : Nat) (oldRole newRole : Role)
    (changedBy : Nat) (now : Nat) (st : AuditState) :
    Option RoleChangeLogEntry × AuditState :=
  if oldRole = newRole then (none, st)
  else
    let entry : RoleChangeLogEntry :=
      ⟨changedUserId, oldRole, newRole, changedBy, now⟩
    (some entry,
      ⟨st.logs ++ [entry],
        st.notifs ++ [⟨changedUserId, NotifType.roleChanged⟩]⟩)

/-- Claim C9, confirmed: logging a role change whose old role equals its
new role is a no-op: no log entry, no notification, and a null return
instead of a failure. -/
theorem C9_log_noop_on_equal_roles (changedUserId : Nat) (oldRole newRole : Role)
    (changedBy now : Nat) (st : AuditState) (h : oldRole = newRole) :
    logRoleChange changedUserId oldRole newRole changedBy now st = (none, st) := by
  simp [logRoleChange, h]

/-- Witness for C9 at a concrete no-op call. -/
theorem C9_log_noop_witness :
    logRoleChange 1 Role.employee Role.employee 0 7 ⟨[], []⟩ = (none, ⟨[], []⟩) :=
  C9_log_noop_on_equal_roles 1 Role.employee Role.employee 0 7 ⟨[], []⟩ rfl

/- Claims C8 and C10: salary creation and update, from the salary
controller, plus canAssignSalary from rbac.js. -/

/-- canAssignSalary (rbac.js): only founder and co-founder, and only toward
a strictly lower role level. -/
def canAssignSalary (assignerRole targetRole : Role) : Bool :=
  if assignerRole ≠ Role.founder ∧ assignerRole ≠ Role.cofounder then false
  else decide (getRoleLevel targetRole < getRoleLevel assignerRole)

/-- The POST /api/salaries body. -/
structure CreateSalaryBody where
  userId : Nat
  month : Nat
  year : Nat
  basicSalary : Int
  allowances : Option Int
  deductions : Option Int
deriving DecidableEq, Repr

/-- createSalary (salary controller): the founder/co-founder gate comes
first, before any store access; then target lookup, strict hierarchy,
duplicate (user, month, year) check, and the netSalary computation with
zero fallbacks for missing allowances/deductions. -/
def createSalary (user : UserRec) (body : CreateSalaryBody)
    (targetUser : Option UserRec) (store : List SalaryRec) (newId : Nat) :
    Except Err SalaryRec :=
  if user.role ≠ Role.founder ∧ user.role ≠ Role.cofounder then
    Except.error Err.forbidden
  else
    match targetUser with
    | none => Except.error Err.notFound
    | some target =>
      if getRoleLevel user.role ≤ getRoleLevel target.role then
        Except.error Err.forbidden
      else if store.any (fun s =>
          s.user == body.userId && s.month == body.month && s.year == body.year) then
        Except.error Err.conflict
      else
        Except.ok
          ⟨newId, body.userId, body.month, body.year, body.basicSalary,
            body.allowances.getD 0, body.deductions.getD 0,
            body.basicSalary + body.allowances.getD 0 - body.deductions.getD 0,
            target.department, SalaryStatus.pending⟩

/-- The PUT /api/salaries/:id body fields that interact with the netSalary
logic; the whole body is spread into the update, so an explicit netSalary
is representable. -/
structure SalaryBody where
  basicSalary : Option Int
  allowances : Option Int
  deductions : Option Int
  netSalary : Option Int
  status : Option SalaryStatus
deriving DecidableEq, Repr

/-- The spread of req.body into updateData followed by the conditional
recompute: provided fields overwrite stored ones; when any of the three
inputs is provided, the recomputed netSalary overwrites even an explicitly
supplied one; otherwise a supplied netSalary is persisted as given. -/
def applySalaryUpdate (sal : SalaryRec) (b : SalaryBody) : SalaryRec :=
  let base := { sal with
      basicSalary := b.basicSalary.getD sal.basicSalary
      allowances := b.allowances.getD sal.allowances
      deductions := b.deductions.getD sal.deductions
      netSalary := b.netSalary.getD sal.netSalary
      status := b.status.getD sal.status }
  if b.basicSalary.isSome || b.allowances.isSome || b.deductions.isSome then
    { base with
        netSalary := b.basicSalary.getD sal.basicSalary
          + b.allowances.getD sal.allowances - b.deductions.getD sal.deductions }
  else base

/-- updateSalary (salary controller): founder/co-founder gate first, then
record lookup (carrying its populated user), strict hierarchy, then the
body application of applySalaryUpdate. -/
def updateSalary (user : UserRec) (salary : Option (SalaryRec × UserRec))
    (b : SalaryBody) : Except Err SalaryRec :=
  if user.role ≠ Role.founder ∧ user.role ≠ Role.cofounder then
    Except.error Err.forbidden
  else
    match salary with
    | none => Except.error Err.notFound
    | some (sal, salUser) =>
      if getRoleLevel user.role ≤ getRoleLevel salUser.role then
        Except.error Err.forbidden
      else
        Except.ok (applySalaryUpdate sal b)

end CMS

namespace CMS

/-- A stored salary row satisfying the netSalary equation, used in the C8
counterexample. -/
def salExample : SalaryRec :=
  ⟨7, 1, 1, 2025, 1000, 200, 100, 1100, some Department.technical,
    SalaryStatus.pending⟩

/-- Claim C8, refuted as stated: the claim asserts the equation holds after
every update, but the body is spread into the document update, so an update
supplying only an explicit netSalary (none of the three inputs) persists
that value unchecked and breaks the equation. -/
theorem C8_counterexample :
    updateSalary founderActor (some (salExample, empTargetTech))
        ⟨none, none, none, some 999999, none⟩
      = Except.ok { salExample with netSalary := 999999 } ∧
    (999999 : Int) ≠ salExample.basicSalary + salExample.allowances
      - salExample.deductions := by
  exact ⟨by rfl, by decide⟩

theorem createSalary_ok_net (user : UserRec) (body : CreateSalaryBody)
    (target : UserRec) (store : List SalaryRec) (newId : Nat) (s : SalaryRec)
    (h : createSalary user body (some target) store newId = Except.ok s) :
    s.netSalary = s.basicSalary + s.allowances - s.deductions := by
  simp only [createSalary] at h
  split at h
  · exact Except.noConfusion h
  · split at h
    · exact Except.noConfusion h
    · split at h
      · exact Except.noConfusion h
      · cases h; rfl

/-- Amended claim C8: the equation netSalary = basicSalary + allowances
minus deductions holds after every create, and after every update that
either supplies one of the three inputs (the recompute overwrites any
supplied netSalary) or does not supply an explicit netSalary (all four
fields pass through unchanged, preserving the equation); the sole escape is
an update supplying netSalary with none of the three inputs, which persists
the given value unchecked. -/
theorem C8_net_salary (user target : UserRec) (body : CreateSalaryBody)
    (store : List SalaryRec) (newId : Nat) (sal : SalaryRec)
    (salUser : UserRec) (b : SalaryBody) :
    (∀ s, createSalary user body (some target) store newId = Except.ok s →
      s.netSalary = s.basicSalary + s.allowances - s.deductions) ∧
    (∀ s, updateSalary user (some (sal, salUser)) b = Except.ok s →
      (b.basicSalary.isSome || b.allowances.isSome || b.deductions.isSome) = true →
      s.netSalary = s.basicSalary + s.allowances - s.deductions) ∧
    (∀ s, updateSalary user (some (sal, salUser)) b = Except.ok s →
      b.netSalary = none →
      sal.netSalary = sal.basicSalary + sal.allowances - sal.deductions →
      s.netSalary = s.basicSalary + s.allowances - s.deductions) := by
  have hup : ∀ s, updateSalary user (some (sal, salUser)) b = Except.ok s →
      s = applySalaryUpdate sal b := by
    intro s h
    simp only [updateSalary] at h
    split at h
    · exact Except.noConfusion h
    · split at h
      · exact Except.noConfusion h
      · cases h; rfl
  refine ⟨fun s h => createSalary_ok_net user body target store newId s h,
    fun s h hsome => ?_, fun s h hnet hsal => ?_⟩
  · rw [hup s h]
    simp only [applySalaryUpdate, hsome, if_pos]
  · rw [hup s h]
    simp only [applySalaryUpdate]
    split
    · rfl
    · next hcond =>
        simp only [Bool.or_eq_true, not_or] at hcond
        have hb := hcond.1.1
        have ha := hcond.1.2
        have hd := hcond.2
        cases hbv : b.basicSalary with
        | some v => rw [hbv] at hb; exact absurd rfl hb
        | none =>
          cases hav : b.allowances with
          | some v => rw [hav] at ha; exact absurd rfl ha
          | none =>
            cases hdv : b.deductions with
            | some v => rw [hdv] at hd; exact absurd rfl hd
            | none => simp [hbv, hav, hdv, hnet, hsal]

/-- Witness for the amended C8: a founder updating a stored salary with a
new basicSalary yields a row satisfying the equation. -/
theorem C8_net_salary_witness :
    (1500 : Int) + 200 - 100 = 1500 + 200 - 100 :=
  (C8_net_salary founderActor empTargetTech ⟨1, 1, 2025, 1000, none, none⟩ []
      8 salExample empTargetTech ⟨some 1500, none, none, none, none⟩).2.1
    { salExample with basicSalary := 1500, netSalary := 1600 } (by rfl) rfl

/-- Claim C10, confirmed: every salary create or update by an actor who is
neither founder nor co-founder is refused with the authorization error
before any store interaction, for every target, body and store; the shared
canAssignSalary predicate likewise refuses such an actor for every target
role. In particular a department head is refused even for an employee of
the head's own department. -/
theorem C10_salary_top_two_only (user : UserRec) (body : CreateSalaryBody)
    (targetUser : Option UserRec) (store : List SalaryRec) (newId : Nat)
    (salary : Option (SalaryRec × UserRec)) (b : SalaryBody) (targetRole : Role)
    (h : user.role ≠ Role.founder ∧ user.role ≠ Role.cofounder) :
    createSalary user body targetUser store newId = Except.error Err.forbidden ∧
    updateSalary user salary b = Except.error Err.forbidden ∧
    canAssignSalary user.role targetRole = false := by
  refine ⟨?_, ?_, ?_⟩
  · simp only [createSalary]; rw [if_pos h]
  · simp only [updateSalary]; rw [if_pos h]
  · simp only [canAssignSalary]; rw [if_pos h]

/-- Witness for C10: the technical head cannot create or update a salary
even for a technical-department employee strictly below them. -/
theorem C10_salary_top_two_only_witness :
    createSalary techHeadActor ⟨1, 1, 2025, 1000, none, none⟩
        (some empTargetTech) [] 9 = Except.error Err.forbidden ∧
    updateSalary techHeadActor (some (salExample, empTargetTech))
        ⟨some 1500, none, none, none, none⟩ = Except.error Err.forbidden ∧
    canAssignSalary Role.technicalHead Role.employee = false :=
  C10_salary_top_two_only techHeadActor ⟨1, 1, 2025, 1000, none, none⟩
    (some empTargetTech) [] 9 (some (salExample, empTargetTech))
    ⟨some 1500, none, none, none, none⟩ Role.employee (by decide)

end CMS

namespace CMS

/- Claims C6 and C7: the performance scoring accumulator, from
performanceService.js. -/

/-- A timestamp as read by the performance service: getFullYear, getMonth
(already shifted to 1..12 as in the source's month+1), getHours and
getMinutes. -/
structure DateT where
  year : Nat
  month : Nat
  hour : Nat
  minute : Nat
deriving DecidableEq, Repr

/-- A Performance document: one bucket per (employee, month, year). -/
structure PerfRec where
  employeeId : Nat
  month : Nat
  year : Nat
  department : Department
  totalScore : Int
  tasksCompleted : Nat
  lateLogins : Nat
  approvedLeaves : Nat
  taskPoints : Int
  lateLoginPenalty : Int
deriving DecidableEq, Repr

def POINTS_TASK_COMPLETED : Int := 10

def POINTS_LATE_LOGIN : Int := -5

def LATE_LOGIN_THRESHOLD_HOUR : Nat := 9

def LATE_LOGIN_THRESHOLD_MINUTE : Nat := 30

/-- The zero bucket created by getOrCreatePerformance when none exists. -/
def perfZero (employeeId month year : Nat) (department : Department) : PerfRec :=
  ⟨employeeId, month, year, department, 0, 0, 0, 0, 0, 0⟩

/-- The (employeeId, month, year) compound-key match used by findOne. -/
def perfKeyMatch (employeeId month year : Nat) (p : PerfRec) : Bool :=
  p.employeeId == employeeId && p.month == month && p.year == year

/-- Performance.findOne on the compound key. -/
def findPerformance (employeeId month year : Nat)
    (store : List PerfRec) : Option PerfRec :=
  store.find? (perfKeyMatch employeeId month year)

/-- Mongoose save() of the mutated found document: the first bucket
matching the key is replaced by its image under the mutation. -/
def savePerf (employeeId month year : Nat) (f : PerfRec → PerfRec) :
    List PerfRec → List PerfRec
  | [] => []
  | p :: ps =>
      if perfKeyMatch employeeId month year p then f p :: ps
      else p :: savePerf employeeId month year f ps

/-- getOrCreatePerformance followed by mutating the bucket and saving it:
an existing bucket is updated in place, a missing one is created at zero
and then updated. -/
def updatePerformance (employeeId month year : Nat) (department : Department)
    (f : PerfRec → PerfRec) (store : List PerfRec) : List PerfRec :=
  match findPerformance employeeId month year store with
  | some _ => savePerf employeeId month year f store
  | none => f (perfZero employeeId month year department) :: store

/-- The onTaskCompleted mutation: tasksCompleted and taskPoints increase,
totalScore is recomputed from the two breakdown fields. -/
def applyTaskCompleted (p : PerfRec) : PerfRec :=
  let tp := p.taskPoints + POINTS_TASK_COMPLETED
  { p with
      tasksCompleted := p.tasksCompleted + 1
      taskPoints := tp
      totalScore := tp + p.lateLoginPenalty }

/-- The onLateLogin mutation: lateLogins and the (negative) penalty grow,
totalScore is recomputed from the two breakdown fields. -/
def applyLateLogin (p : PerfRec) : PerfRec :=
  let pen := p.lateLoginPenalty + POINTS_LATE_LOGIN
  { p with
      lateLogins := p.lateLogins + 1
      lateLoginPenalty := pen
      totalScore := p.taskPoints + pen }

/-- The onLeaveApproved mutation: only the approvedLeaves counter moves. -/
def applyLeaveApproved (p : PerfRec) : PerfRec :=
  { p with approvedLeaves := p.approvedLeaves + 1 }

/-- isLateLogin (performanceService.js): strictly after the 09:30 threshold
at minute granularity. -/
def isLateLogin (loginTime : DateT) : Bool :=
  if loginTime.hour > LATE_LOGIN_THRESHOLD_HOUR then true
  else if loginTime.hour = LATE_LOGIN_THRESHOLD_HOUR ∧
      loginTime.minute > LATE_LOGIN_THRESHOLD_MINUTE then true
  else false

/-- onTaskCompleted: no-op when the user is missing or has no department;
the bucket key is the current wall-clock month/year. -/
def onTaskCompleted (user : Option UserRec) (now : DateT)
    (store : List PerfRec) : List PerfRec :=
  match user with
  | none => store
  | some u =>
    match u.department with
    | none => store
    | some d => updatePerformance u.id now.month now.year d applyTaskCompleted store

/-- onLateLogin: returns unchanged when the login is not late; otherwise
the bucket key is the login timestamp's own month/year (the function never
reads the current clock). -/
def onLateLogin (user : Option UserRec) (loginTime : DateT)
    (store : List PerfRec) : List PerfRec :=
  if !isLateLogin loginTime then store
  else
    match user with
    | none => store
    | some u =>
      match u.department with
      | none => store
      | some d =>
          updatePerformance u.id loginTime.month loginTime.year d
            applyLateLogin store

/-- onLeaveApproved: bucket keyed by the current wall-clock month/year; no
score change. -/
def onLeaveApproved (user : Option UserRec) (now : DateT)
    (store : List PerfRec) : List PerfRec :=
  match user with
  | none => store
  | some u =>
    match u.department with
    | none => store
    | some d => updatePerformance u.id now.month now.year d applyLeaveApproved store

/-- One call into the performance accumulator. -/
inductive PerfEvent where
  | taskCompleted (user : Option UserRec) (now : DateT)
  | lateLogin (user : Option UserRec) (loginTime : DateT)
  | leaveApproved (user : Option UserRec) (now : DateT)
deriving DecidableEq, Repr

def applyPerfEvent (store : List PerfRec) (e : PerfEvent) : List PerfRec :=
  match e with
  | PerfEvent.taskCompleted u now => onTaskCompleted u now store
  | PerfEvent.lateLogin u t => onLateLogin u t store
  | PerfEvent.leaveApproved u now => onLeaveApproved u now store

/-- The score equation of claim C6 for one bucket. -/
def PerfEq (p : PerfRec) : Prop :=
  p.totalScore = p.taskPoints + p.lateLoginPenalty

theorem perfEq_applyTaskCompleted (p : PerfRec) : PerfEq (applyTaskCompleted p) := rfl

theorem perfEq_applyLateLogin (p : PerfRec) : PerfEq (applyLateLogin p) := rfl

theorem perfEq_applyLeaveApproved (p : PerfRec) (h : PerfEq p) :
    PerfEq (applyLeaveApproved p) := h

theorem perfEq_perfZero (employeeId month year : Nat) (d : Department) :
    PerfEq (perfZero employeeId month year d) := rfl

theorem mem_savePerf (employeeId month year : Nat) (f : PerfRec → PerfRec)
    (store : List PerfRec) (p : PerfRec)
    (hp : p ∈ savePerf employeeId month year f store) :
    p ∈ store ∨ ∃ q, q ∈ store ∧ p = f q := by
  induction store with
  | nil => exact absurd hp (by simp [savePerf])
  | cons x xs ih =>
      simp only [savePerf] at hp
      split at hp
      · rcases List.mem_cons.mp hp with rfl | hmem
        · exact Or.inr ⟨x, List.mem_cons_self x xs, rfl⟩
        · exact Or.inl (List.mem_cons_of_mem x hmem)
      · rcases List.mem_cons.mp hp with rfl | hmem
        · exact Or.inl (List.mem_cons_self p xs)
        · rcases ih hmem with h | ⟨q, hq, rfl⟩
          · exact Or.inl (List.mem_cons_of_mem x h)
          · exact Or.inr ⟨q, List.mem_cons_of_mem x hq, rfl⟩

theorem updatePerformance_perfEq (employeeId month year : Nat) (d : Department)
    (f : PerfRec → PerfRec) (store : List PerfRec)
    (hf : ∀ p, PerfEq p → PerfEq (f p))
    (hinv : ∀ p ∈ store, PerfEq p) :
    ∀ p ∈ updatePerformance employeeId month year d f store, PerfEq p := by
  intro p hp
  simp only [updatePerformance] at hp
  split at hp
  · rcases mem_savePerf employeeId month year f store p hp with h | ⟨q, hq, rfl⟩
    · exact hinv p h
    · exact hf q (hinv q hq)
  · rcases List.mem_cons.mp hp with rfl | h
    · exact hf _ (perfEq_perfZero employeeId month year d)
    · exact hinv p h

theorem onTaskCompleted_perfEq (u : Option UserRec) (now : DateT)
    (store : List PerfRec) (hinv : ∀ p ∈ store, PerfEq p) :
    ∀ p ∈ onTaskCompleted u now store, PerfEq p := by
  cases u with
  | none => exact hinv
  | some u0 =>
      rcases hdep : u0.department with _ | d
      · simp only [onTaskCompleted, hdep]; exact hinv
      · simp only [onTaskCompleted, hdep]
        exact updatePerformance_perfEq _ _ _ _ _ _
          (fun p _ => perfEq_applyTaskCompleted p) hinv

theorem onLateLogin_perfEq (u : Option UserRec) (t : DateT)
    (store : List PerfRec) (hinv : ∀ p ∈ store, PerfEq p) :
    ∀ p ∈ onLateLogin u t store, PerfEq p := by
  simp only [onLateLogin]
  split
  · exact hinv
  · cases u with
    | none => exact hinv
    | some u0 =>
        rcases hdep : u0.department with _ | d
        · simp only [hdep]; exact hinv
        · simp only [hdep]
          exact updatePerformance_perfEq _ _ _ _ _ _
            (fun p _ => perfEq_applyLateLogin p) hinv

theorem onLeaveApproved_perfEq (u : Option UserRec) (now : DateT)
    (store : List PerfRec) (hinv : ∀ p ∈ store, PerfEq p) :
    ∀ p ∈ onLeaveApproved u now store, PerfEq p := by
  cases u with
  | none => exact hinv
  | some u0 =>
      rcases hdep : u0.department with _ | d
      · simp only [onLeaveApproved, hdep]; exact hinv
      · simp only [onLeaveApproved, hdep]
        exact updatePerformance_perfEq _ _ _ _ _ _ perfEq_applyLeaveApproved hinv

theorem applyPerfEvent_perfEq (store : List PerfRec) (e : PerfEvent)
    (hinv : ∀ p ∈ store, PerfEq p) : ∀ p ∈ applyPerfEvent store e, PerfEq p := by
  cases e with
  | taskCompleted u now => exact onTaskCompleted_perfEq u now store hinv
  | lateLogin u t => exact onLateLogin_perfEq u t store hinv
  | leaveApproved u now => exact onLeaveApproved_perfEq u now store hinv

theorem foldl_perfEq (events : List PerfEvent) (store : List PerfRec)
    (hinv : ∀ p ∈ store, PerfEq p) :
    ∀ p ∈ events.foldl applyPerfEvent store, PerfEq p := by
  induction events generalizing store with
  | nil => exact hinv
  | cons e es ih => exact ih _ (applyPerfEvent_perfEq store e hinv)

/-- Claim C6, confirmed: after any finite sequence of onTaskCompleted,
onLateLogin and onLeaveApproved calls starting from the empty store (every
bucket lazily created at zero), every persisted bucket satisfies
totalScore = taskPoints + lateLoginPenalty: the total is recomputed from
the breakdown on each scoring mutation, so it never drifts. -/
theorem C6_total_score_never_drifts (events : List PerfEvent) (p : PerfRec)
    (hp : p ∈ events.foldl applyPerfEvent []) :
    p.totalScore = p.taskPoints + p.lateLoginPenalty :=
  foldl_perfEq events [] (by intro q hq; exact absurd hq (by simp)) p hp

/-- Witness for C6: a completed task followed by a late login in the same
month leaves one bucket with totalScore 5 = 10 + (-5). -/
theorem C6_total_score_witness :
    (⟨1, 1, 2025, Department.technical, 5, 1, 1, 0, 10, -5⟩ : PerfRec).totalScore
      = (⟨1, 1, 2025, Department.technical, 5, 1, 1, 0, 10, -5⟩ : PerfRec).taskPoints
        + (⟨1, 1, 2025, Department.technical, 5, 1, 1, 0, 10, -5⟩ : PerfRec).lateLoginPenalty :=
  C6_total_score_never_drifts
    [PerfEvent.taskCompleted (some empTargetTech) ⟨2025, 1, 10, 0⟩,
      PerfEvent.lateLogin (some empTargetTech) ⟨2025, 1, 9, 45⟩]
    ⟨1, 1, 2025, Department.technical, 5, 1, 1, 0, 10, -5⟩ (by decide)

end CMS

namespace CMS

theorem perfKeyMatch_applyLateLogin (eid m y : Nat) (p : PerfRec) :
    perfKeyMatch eid m y (applyLateLogin p) = perfKeyMatch eid m y p := rfl

theorem savePerf_find_self (eid m y : Nat) (store : List PerfRec) (q : PerfRec)
    (hq : findPerformance eid m y store = some q) :
    findPerformance eid m y (savePerf eid m y applyLateLogin store)
      = some (applyLateLogin q) := by
  induction store with
  | nil => exact absurd hq (by simp [findPerformance])
  | cons x xs ih =>
      by_cases hk : perfKeyMatch eid m y x
      · have hxq : q = x := by
          simp [findPerformance, List.find?_cons_of_pos _ hk] at hq
          exact hq.symm
        subst hxq
        have hk2 : perfKeyMatch eid m y (applyLateLogin q) = true := by
          rw [perfKeyMatch_applyLateLogin]; exact hk
        rw [show savePerf eid m y applyLateLogin (q :: xs)
              = applyLateLogin q :: xs from by simp [savePerf, hk]]
        simp [findPerformance, List.find?_cons_of_pos _ hk2]
      · have hq2 : findPerformance eid m y xs = some q := by
          simpa [findPerformance, List.find?_cons_of_neg _
            (by simpa using hk)] using hq
        rw [show savePerf eid m y applyLateLogin (x :: xs)
              = x :: savePerf eid m y applyLateLogin xs from by simp [savePerf, hk]]
        simpa [findPerformance, List.find?_cons_of_neg _
          (by simpa using hk)] using ih hq2

theorem perfKeyMatch_false_of_other (eid m y eid2 m2 y2 : Nat) (p : PerfRec)
    (hk : perfKeyMatch eid m y p = true)
    (hne : ¬(eid2 = eid ∧ m2 = m ∧ y2 = y)) :
    perfKeyMatch eid2 m2 y2 p = false := by
  rw [Bool.eq_false_iff]
  intro hx
  simp only [perfKeyMatch, Bool.and_eq_true, beq_iff_eq] at hk hx
  exact hne ⟨hx.1.1 ▸ hk.1.1, hx.1.2 ▸ hk.1.2, hx.2 ▸ hk.2⟩

theorem savePerf_find_other (eid m y eid2 m2 y2 : Nat) (store : List PerfRec)
    (hne : ¬(eid2 = eid ∧ m2 = m ∧ y2 = y)) :
    findPerformance eid2 m2 y2 (savePerf eid m y applyLateLogin store)
      = findPerformance eid2 m2 y2 store := by
  induction store with
  | nil => rfl
  | cons x xs ih =>
      by_cases hk : perfKeyMatch eid m y x
      · have hx2 : perfKeyMatch eid2 m2 y2 x = false :=
          perfKeyMatch_false_of_other eid m y eid2 m2 y2 x hk hne
        have hfx2 : perfKeyMatch eid2 m2 y2 (applyLateLogin x) = false := by
          rw [perfKeyMatch_applyLateLogin]; exact hx2
        rw [show savePerf eid m y applyLateLogin (x :: xs)
              = applyLateLogin x :: xs from by simp [savePerf, hk]]
        show List.find? _ _ = List.find? _ _
        rw [List.find?_cons_of_neg _ (by simp [hfx2]),
          List.find?_cons_of_neg _ (by simp [hx2])]
      · rw [show savePerf eid m y applyLateLogin (x :: xs)
              = x :: savePerf eid m y applyLateLogin xs from by simp [savePerf, hk]]
        by_cases hx2 : perfKeyMatch eid2 m2 y2 x
        · show List.find? _ _ = List.find? _ _
          rw [List.find?_cons_of_pos _ hx2, List.find?_cons_of_pos _ hx2]
        · show List.find? _ _ = List.find? _ _
          rw [List.find?_cons_of_neg _ (by simpa using hx2),
            List.find?_cons_of_neg _ (by simpa using hx2)]
          exact ih

theorem updatePerformance_find_self (eid m y : Nat) (d : Department)
    (store : List PerfRec) :
    findPerformance eid m y (updatePerformance eid m y d applyLateLogin store)
      = some (applyLateLogin
          ((findPerformance eid m y store).getD (perfZero eid m y d))) := by
  cases hq : findPerformance eid m y store with
  | some q =>
      simp only [updatePerformance, hq, Option.getD_some]
      exact savePerf_find_self eid m y store q hq
  | none =>
      have hz : perfKeyMatch eid m y (applyLateLogin (perfZero eid m y d)) = true := by
        simp [perfKeyMatch, perfZero, applyLateLogin]
      simp only [updatePerformance, hq, Option.getD_none]
      simp [findPerformance, List.find?_cons_of_pos _ hz]

theorem updatePerformance_find_other (eid m y : Nat) (d : Department)
    (store : List PerfRec) (eid2 m2 y2 : Nat)
    (hne : ¬(eid2 = eid ∧ m2 = m ∧ y2 = y)) :
    findPerformance eid2 m2 y2 (updatePerformance eid m y d applyLateLogin store)
      = findPerformance eid2 m2 y2 store := by
  cases hq : findPerformance eid m y store with
  | some q =>
      simp only [updatePerformance, hq]
      exact savePerf_find_other eid m y eid2 m2 y2 store hne
  | none =>
      have hz : perfKeyMatch eid2 m2 y2 (applyLateLogin (perfZero eid m y d)) = false := by
        refine perfKeyMatch_false_of_other eid m y eid2 m2 y2 _ ?_ hne
        simp [perfKeyMatch, perfZero, applyLateLogin]
      simp only [updatePerformance, hq]
      show List.find? _ _ = List.find? _ _
      rw [List.find?_cons_of_neg _ (by simp [hz])]

/-- Claim C7, confirmed: a late login is exactly a login strictly after the
09:30 threshold at the minute granularity the source reads (hours and
minutes); a login at or before 09:30 leaves the store unchanged; a late
login updates precisely the bucket of the login timestamp's own month and
year (onLateLogin never reads the current clock), incrementing lateLogins
by one and lateLoginPenalty by -5 and recomputing the total, while every
other bucket key is untouched. -/
theorem C7_late_login_accumulator (u : UserRec) (d : Department) (t : DateT)
    (store : List PerfRec) (hd : u.department = some d) (hmin : t.minute < 60) :
    (isLateLogin t = true ↔ 60 * 9 + 30 < 60 * t.hour + t.minute) ∧
    (isLateLogin t = false → onLateLogin (some u) t store = store) ∧
    (isLateLogin t = true →
      (findPerformance u.id t.month t.year (onLateLogin (some u) t store)
        = some (applyLateLogin
            ((findPerformance u.id t.month t.year store).getD
              (perfZero u.id t.month t.year d))) ∧
        ∀ p, applyLateLogin p
          = { p with
                lateLogins := p.lateLogins + 1
                lateLoginPenalty := p.lateLoginPenalty + POINTS_LATE_LOGIN
                totalScore := p.taskPoints + (p.lateLoginPenalty + POINTS_LATE_LOGIN) }) ∧
      (∀ eid2 m2 y2, ¬(eid2 = u.id ∧ m2 = t.month ∧ y2 = t.year) →
        findPerformance eid2 m2 y2 (onLateLogin (some u) t store)
          = findPerformance eid2 m2 y2 store)) := by
  refine ⟨?_, ?_, ?_⟩
  · simp only [isLateLogin, LATE_LOGIN_THRESHOLD_HOUR, LATE_LOGIN_THRESHOLD_MINUTE]
    split
    · next hgt => simp; omega
    · split
      · next hc => simp; omega
      · next h1 h2 =>
          simp only [Bool.false_eq_true, false_iff]
          rw [not_and_or] at h2
          rcases h2 with h2 | h2 <;> omega
  · intro h
    simp [onLateLogin, h]
  · intro hl
    have hrw : onLateLogin (some u) t store
        = updatePerformance u.id t.month t.year d applyLateLogin store := by
      simp [onLateLogin, hl, hd]
    refine ⟨⟨?_, fun p => rfl⟩, ?_⟩
    · rw [hrw]
      exact updatePerformance_find_self u.id t.month t.year d store
    · intro eid2 m2 y2 hne
      rw [hrw]
      exact updatePerformance_find_other u.id t.month t.year d store eid2 m2 y2 hne

/-- Witness for C7: an employee logging in at 09:45 on a January 2025
timestamp gets a fresh January 2025 bucket with one late login, penalty -5
and total -5. -/
theorem C7_late_login_witness :
    findPerformance 1 1 2025 (onLateLogin (some empTargetTech) ⟨2025, 1, 9, 45⟩ [])
      = some ⟨1, 1, 2025, Department.technical, -5, 0, 1, 0, 0, -5⟩ := by
  have h := ((C7_late_login_accumulator empTargetTech Department.technical
    ⟨2025, 1, 9, 45⟩ [] rfl (by decide)).2.2 (by decide)).1.1
  exact h.trans (by decide)

end CMS

namespace CMS

/- Claims C3 and C4: POST /api/tasks/:id/complete, from the task routes
file: multer writes the accepted upload, then the handler validates,
transitions the task and inserts the TaskSubmission, deleting the uploaded
file on every failure path. -/

inductive FileExt where
  | pdf
  | csv
  | other
deriving DecidableEq, Repr

/-- An upload arriving at the completion route: the original extension,
whether the mimetype is on the multer allow-list, and the unique disk path
the storage layer assigns. -/
structure UploadReq where
  ext : FileExt
  mimeAllowed : Bool
  path : Nat
deriving DecidableEq, Repr

/-- A TaskSubmission document; the schema requires a department, so the
insert throws when the submitting user has none. -/
structure SubmissionRec where
  task : Nat
  submittedBy : Nat
  fileType : FileExt
  filePath : Nat
  department : Department
  submittedAt : Nat
deriving DecidableEq, Repr

/-- The state touched by the completion route: the task collection, the
task-submission collection and the uploaded files on disk. -/
structure CompletionState where
  tasks : List TaskRec
  submissions : List SubmissionRec
  files : List Nat
deriving DecidableEq, Repr

/-- fs.unlinkSync of the uploaded file, when one was written. -/
def unlinkUpload (st : CompletionState) (file : Option UploadReq) : CompletionState :=
  match file with
  | none => st
  | some f => { st with files := st.files.erase f.path }

/-- The route handler body (after multer), translated check by check:
task lookup, assignee gate, mandatory file, extension re-check, completed
conflict, duplicate-submission conflict, then the status save followed by
the submission insert; the catch block deletes the file when the insert
throws (the schema's required department missing). -/
def completeTaskHandler (user : UserRec) (taskId : Nat) (file : Option UploadReq)
    (now : Nat) (st : CompletionState) : Except Err SubmissionRec × CompletionState :=
  match st.tasks.find? (fun tk => tk.id == taskId) with
  | none => (Except.error Err.notFound, unlinkUpload st file)
  | some task =>
    if task.assignedTo ≠ user.id then
      (Except.error Err.forbidden, unlinkUpload st file)
    else
      match file with
      | none => (Except.error Err.validation, st)
      | some f =>
        if f.ext ≠ FileExt.pdf ∧ f.ext ≠ FileExt.csv then
          (Except.error Err.validation, unlinkUpload st (some f))
        else if task.status = TaskStatus.completed then
          (Except.error Err.conflict, unlinkUpload st (some f))
        else if st.submissions.any (fun sub => sub.task == task.id) then
          (Except.error Err.conflict, unlinkUpload st (some f))
        else
          let st2 := { st with tasks := st.tasks.map (fun tk =>
            if tk.id == taskId then
              { tk with status := TaskStatus.completed, completedAt := some now }
            else tk) }
          match user.department with
          | none => (Except.error Err.serverError, unlinkUpload st2 (some f))
          | some d =>
              (Except.ok ⟨task.id, user.id, f.ext, f.path, d, now⟩,
                { st2 with submissions :=
                    st2.submissions ++ [⟨task.id, user.id, f.ext, f.path, d, now⟩] })

/-- Whether multer's fileFilter admits the upload: extension on the
allow-list or mimetype on the allow-list, so a wrong extension with an
allowed mimetype is written to disk and only rejected inside the
handler. -/
def multerAccepts (f : UploadReq) : Bool :=
  (f.ext == FileExt.pdf || f.ext == FileExt.csv) || f.mimeAllowed

/-- The whole route: multer writes the accepted upload to disk before the
handler runs; a filter-rejected upload is never written and is answered
with the multer 400. -/
def postTaskComplete (user : UserRec) (taskId : Nat) (upload : Option UploadReq)
    (now : Nat) (st : CompletionState) : Except Err SubmissionRec × CompletionState :=
  match upload with
  | none => completeTaskHandler user taskId none now st
  | some f =>
      if multerAccepts f then
        completeTaskHandler user taskId (some f) now
          { st with files := f.path :: st.files }
      else (Except.error Err.validation, st)

/-- A co-founder (no department) who is a task assignee, used in the C3
counterexample. -/
def cofounderAssignee : UserRec := ⟨5, Role.cofounder, none⟩

/-- A pending task assigned by the founder to the co-founder (the task's
department is copied from the assignee and hence null). -/
def taskForCofounder : TaskRec := ⟨20, 5, 0, none, TaskStatus.pending, none⟩

/-- Claim C3, refuted as stated: on a completion attempt whose submission
insert fails after the status save (the schema-required department is
missing on the co-founder assignee), the route deletes the uploaded file
but leaves the task already transitioned to completed, so the status
change and the submission row are not applied as a single unit. -/
theorem C3_counterexample :
    (postTaskComplete cofounderAssignee 20 (some ⟨FileExt.pdf, true, 100⟩) 50
        ⟨[taskForCofounder], [], []⟩).1 = Except.error Err.serverError ∧
    (postTaskComplete cofounderAssignee 20 (some ⟨FileExt.pdf, true, 100⟩) 50
        ⟨[taskForCofounder], [], []⟩).2.files = [] ∧
    (postTaskComplete cofounderAssignee 20 (some ⟨FileExt.pdf, true, 100⟩) 50
        ⟨[taskForCofounder], [], []⟩).2.tasks
      = [⟨20, 5, 0, none, TaskStatus.completed, some 50⟩] ∧
    TaskStatus.completed ≠ taskForCofounder.status := by
  refine ⟨by rfl, by rfl, by rfl, by decide⟩

end CMS

namespace CMS

/-- Amended claim C3: on every failing completion attempt the uploaded file
is deleted and no submission row is added; failures before the status save
(missing task, wrong user, file-type validation, already-completed and
duplicate-submission conflicts) also leave the task collection unchanged;
a failure of the submission insert itself (the schema-required department
missing on the submitting user) still deletes the file but leaves the
already-saved completed status in place, so the two writes are not a
single unit. -/
theorem C3_amended_atomicity (user : UserRec) (taskId : Nat) (f : UploadReq)
    (now : Nat) (st : CompletionState) (e : Err) (s2 : CompletionState)
    (hfresh : f.path ∉ st.files)
    (hres : postTaskComplete user taskId (some f) now st = (Except.error e, s2)) :
    s2.submissions = st.submissions ∧
    f.path ∉ s2.files ∧
    (e ≠ Err.serverError → s2.tasks = st.tasks) ∧
    (e = Err.serverError → user.department = none ∧
      s2.tasks = st.tasks.map (fun tk => if tk.id == taskId then
        { tk with status := TaskStatus.completed, completedAt := some now } else tk)) := by
  simp only [postTaskComplete] at hres
  split at hres
  · simp only [completeTaskHandler] at hres
    split at hres
    · rw [Prod.mk.injEq] at hres
      obtain ⟨he, hs⟩ := hres
      cases he
      subst hs
      refine ⟨rfl, ?_, fun _ => rfl, fun h => Err.noConfusion h⟩
      simpa [unlinkUpload, List.erase_cons_head] using hfresh
    · split at hres
      · rw [Prod.mk.injEq] at hres
        obtain ⟨he, hs⟩ := hres
        cases he
        subst hs
        refine ⟨rfl, ?_, fun _ => rfl, fun h => Err.noConfusion h⟩
        simpa [unlinkUpload, List.erase_cons_head] using hfresh
      · split at hres
        · rw [Prod.mk.injEq] at hres
          obtain ⟨he, hs⟩ := hres
          cases he
          subst hs
          refine ⟨rfl, ?_, fun _ => rfl, fun h => Err.noConfusion h⟩
          simpa [unlinkUpload, List.erase_cons_head] using hfresh
        · split at hres
          · rw [Prod.mk.injEq] at hres
            obtain ⟨he, hs⟩ := hres
            cases he
            subst hs
            refine ⟨rfl, ?_, fun _ => rfl, fun h => Err.noConfusion h⟩
            simpa [unlinkUpload, List.erase_cons_head] using hfresh
          · split at hres
            · rw [Prod.mk.injEq] at hres
              obtain ⟨he, hs⟩ := hres
              cases he
              subst hs
              refine ⟨rfl, ?_, fun _ => rfl, fun h => Err.noConfusion h⟩
              simpa [unlinkUpload, List.erase_cons_head] using hfresh
            · split at hres
              · next hdept =>
                  rw [Prod.mk.injEq] at hres
                  obtain ⟨he, hs⟩ := hres
                  cases he
                  subst hs
                  refine ⟨rfl, ?_, fun h => absurd rfl h, fun _ => ⟨hdept, rfl⟩⟩
                  simpa [unlinkUpload, List.erase_cons_head] using hfresh
              · rw [Prod.mk.injEq] at hres
                exact Except.noConfusion hres.1
  · rw [Prod.mk.injEq] at hres
    obtain ⟨he, hs⟩ := hres
    cases he
    subst hs
    exact ⟨rfl, hfresh, fun _ => rfl, fun h => Err.noConfusion h⟩

end CMS

namespace CMS

/-- Witness for the amended C3 at the co-founder-assignee input: the
theorem applied there shows the uploaded file does not survive the failed
attempt. -/
theorem C3_amended_witness :
    (100 : Nat) ∉
      (⟨[⟨20, 5, 0, none, TaskStatus.completed, some 50⟩], [], []⟩
        : CompletionState).files :=
  (C3_amended_atomicity cofounderAssignee 20 ⟨FileExt.pdf, true, 100⟩ 50
    ⟨[taskForCofounder], [], []⟩ Err.serverError
    ⟨[⟨20, 5, 0, none, TaskStatus.completed, some 50⟩], [], []⟩
    (by decide) (by rfl)).2.1

theorem postTaskComplete_submissions_cases (user : UserRec) (taskId : Nat)
    (upload : Option UploadReq) (now : Nat) (st : CompletionState) :
    (postTaskComplete user taskId upload now st).2.submissions = st.submissions ∨
    ∃ sub, (postTaskComplete user taskId upload now st).2.submissions
        = st.submissions ++ [sub] ∧
      st.submissions.any (fun s0 => s0.task == sub.task) = false := by
  cases upload with
  | none =>
      simp only [postTaskComplete, completeTaskHandler]
      split
      · left; rfl
      · split
        · left; rfl
        · left; rfl
  | some f =>
      simp only [postTaskComplete]
      split
      · simp only [completeTaskHandler]
        split
        · left; rfl
        · split
          · left; rfl
          · split
            · left; rfl
            · split
              · left; rfl
              · split
                · left; rfl
                · next hany =>
                    split
                    · left; rfl
                    · next task d hdept =>
                        right
                        exact ⟨_, rfl, by simpa using hany⟩
      · left; rfl

/-- The number of TaskSubmission rows referencing a given task. -/
def subCountFor (tid : Nat) (st : CompletionState) : Nat :=
  (st.submissions.filter (fun sub => sub.task == tid)).length

/-- One call of the completion route. -/
structure Attempt where
  user : UserRec
  taskId : Nat
  upload : Option UploadReq
  now : Nat
deriving DecidableEq, Repr

def runAttempt (st : CompletionState) (a : Attempt) : CompletionState :=
  (postTaskComplete a.user a.taskId a.upload a.now st).2

def runAttempts (attempts : List Attempt) (st : CompletionState) : CompletionState :=
  attempts.foldl runAttempt st

theorem subCountFor_runAttempt_le (st : CompletionState) (a : Attempt) (tid : Nat)
    (h : subCountFor tid st ≤ 1) : subCountFor tid (runAttempt st a) ≤ 1 := by
  rcases postTaskComplete_submissions_cases a.user a.taskId a.upload a.now st with
    heq | ⟨sub, heq, hany⟩
  · unfold subCountFor runAttempt
    rw [heq]
    exact h
  · unfold subCountFor at h
    unfold subCountFor runAttempt
    rw [heq, List.filter_append, List.length_append]
    by_cases htid : sub.task = tid
    · have hzero : (st.submissions.filter (fun s0 => s0.task == tid)).length = 0 := by
        rw [List.length_eq_zero, List.filter_eq_nil_iff]
        intro s0 hs0
        have hnot := List.any_eq_false.mp hany s0 hs0
        simpa [htid] using hnot
      have hone : (List.filter (fun s0 => s0.task == tid) [sub]).length ≤ 1 := by
        simp [List.filter]
        split <;> simp
      omega
    · have hb : (sub.task == tid) = false := by simpa using htid
      have hz2 : (List.filter (fun s0 => s0.task == tid) [sub]).length = 0 := by
        simp [List.filter, hb]
      omega

theorem subCountFor_runAttempts_le (attempts : List Attempt) (st : CompletionState)
    (tid : Nat) (h : subCountFor tid st ≤ 1) :
    subCountFor tid (runAttempts attempts st) ≤ 1 := by
  induction attempts generalizing st with
  | nil => exact h
  | cons a as ih => exact ih _ (subCountFor_runAttempt_le st a tid h)

/-- Claim C4, confirmed: a completion attempt on a task already completed
is rejected with the conflict error and adds no submission row; and from
any state with at most one submission for a task, any number of further
completion attempts leaves at most one submission for that task (the
duplicate-submission guard blocks a second insert). -/
theorem C4_single_submission (user : UserRec) (taskId : Nat) (f : UploadReq)
    (now : Nat) (st : CompletionState) (task : TaskRec)
    (hfind : st.tasks.find? (fun tk => tk.id == taskId) = some task)
    (hassn : task.assignedTo = user.id)
    (hext : f.ext = FileExt.pdf ∨ f.ext = FileExt.csv)
    (hcomp : task.status = TaskStatus.completed) :
    (postTaskComplete user taskId (some f) now st).1 = Except.error Err.conflict ∧
    (postTaskComplete user taskId (some f) now st).2.submissions = st.submissions ∧
    (∀ (attempts : List Attempt) (tid : Nat), subCountFor tid st ≤ 1 →
      subCountFor tid (runAttempts attempts st) ≤ 1) := by
  have hacc : multerAccepts f = true := by
    rcases hext with h | h <;> simp [multerAccepts, h]
  have hne : ¬task.assignedTo ≠ user.id := fun hc => hc hassn
  have hextne : ¬(f.ext ≠ FileExt.pdf ∧ f.ext ≠ FileExt.csv) := by
    rcases hext with h | h
    · exact fun hc => hc.1 h
    · exact fun hc => hc.2 h
  refine ⟨?_, ?_, fun attempts tid h => subCountFor_runAttempts_le attempts st tid h⟩
  · simp only [postTaskComplete, hacc, if_pos, completeTaskHandler]
    simp only [show ({ st with files := f.path :: st.files } : CompletionState).tasks
      = st.tasks from rfl, hfind]
    rw [if_neg hne, if_neg hextne, if_pos hcomp]
  · simp only [postTaskComplete, hacc, if_pos, completeTaskHandler]
    simp only [show ({ st with files := f.path :: st.files } : CompletionState).tasks
      = st.tasks from rfl, hfind]
    rw [if_neg hne, if_neg hextne, if_pos hcomp]
    rfl

end CMS

namespace CMS

/-- A completed technical task assigned to the witness employee. -/
def completedTaskC4 : TaskRec :=
  ⟨21, 1, 0, some Department.technical, TaskStatus.completed, some 40⟩

/-- Witness for C4: a further completion attempt by the assignee on an
already-completed task is answered with the conflict error. -/
theorem C4_single_submission_witness :
    (postTaskComplete empTargetTech 21 (some ⟨FileExt.csv, true, 101⟩) 50
        ⟨[completedTaskC4], [], []⟩).1 = Except.error Err.conflict :=
  (C4_single_submission empTargetTech 21 ⟨FileExt.csv, true, 101⟩ 50
    ⟨[completedTaskC4], [], []⟩ completedTaskC4 (by rfl) rfl (Or.inr rfl) rfl).1

end CMS
